import Mathlib

/-!
# InsightBridge — Ingestion & Heuristic Insight Pipeline, shallow embedding

This file embeds the core of the InsightBridge repository in Lean 4:

* `src/lib/dataParser.ts` — `analyzeData` (row ingestion and schema inference),
  `detectQualityIssues` (missing-data / small-sample / outlier assessment) and
  `formatDataForAI` (the context digest);
* `src/validation/aiServiceGemini.ts` — `queryAI` (two-tier remote/local
  resolution), `getMockResponse` (the local heuristic insight engine).

Modelling conventions:

* JavaScript numbers are modelled over `ℚ` extended with `Infinity`,
  `-Infinity` and `NaN` (`JSNum`).  The decimal fractions appearing in the
  source (`0.1`, `0.25`, `0.75`, `1.5`, `0.05`) are exact binary or
  short-decimal constants whose comparisons against the small integer counts
  occurring here are not affected by double rounding, so exact rational
  arithmetic coincides with the source's double arithmetic on every compared
  boundary.
* A raw cell value is the closed union `number | string | boolean | null`
  (`Value`); an absent object key (JavaScript `undefined`) is `Option.none` at
  the lookup site.
* Wall-clock durations (`Date.now()` deltas, the simulated mock delay) are not
  modelled; the corresponding `processingTime` metadata is `none` where the
  source stores an elapsed time, and the literal `1500` where the source
  stores the literal.
-/

/- The library marks the `Rat` arithmetic operations `@[irreducible]` for
elaboration performance.  The concrete test-vector evaluations below need
`decide` to reduce rational arithmetic, so reducibility is restored locally
for this file; this only changes elaborator unfolding, not any definition. -/
set_option allowUnsafeReducibility true

attribute [local semireducible] Rat.add Rat.mul Rat.sub Rat.inv Rat.div Rat.ofScientific

namespace InsightBridge

/-- Raw cell value at the ingestion boundary: `number | string | boolean | null`.
An absent key (JS `undefined`) is represented by `Option.none` at lookup sites. -/
inductive Value where
  | num (q : ℚ)
  | str (s : String)
  | bool (b : Bool)
  | null
deriving DecidableEq

/-- A raw record / dataset row: a JavaScript object modelled as an ordered
association list from key to cell value (key order is observable via
`Object.keys`, which the source uses on the first row). -/
abbrev Row := List (String × Value)

/-- First-match association lookup, the semantics of `obj[key]`:
`none` models JavaScript `undefined`. -/
def assocLookup {α : Type} : List (String × α) → String → Option α
  | [], _ => none
  | (k, v) :: rest, h => if k == h then some v else assocLookup rest h

/-- A JavaScript number: a finite double (modelled exactly as a rational),
`Infinity`, `-Infinity` or `NaN`. -/
inductive JSNum where
  | fin (q : ℚ)
  | inf
  | ninf
  | nan
deriving DecidableEq

def JSNum.isNaN : JSNum → Bool
  | .nan => true
  | _ => false

def JSNum.isFinite : JSNum → Bool
  | .fin _ => true
  | _ => false

/-- JavaScript `<` on numbers: any comparison involving `NaN` is false. -/
def jsLt : JSNum → JSNum → Bool
  | .nan, _ => false
  | _, .nan => false
  | .ninf, .ninf => false
  | .ninf, _ => true
  | _, .ninf => false
  | .fin a, .fin b => decide (a < b)
  | .fin _, .inf => true
  | .inf, _ => false

/-- JavaScript `<=` on numbers: false if either side is `NaN`, else `¬ (b < a)`. -/
def jsLe (a b : JSNum) : Bool :=
  if a.isNaN || b.isNaN then false else !(jsLt b a)

def JSNum.neg : JSNum → JSNum
  | .fin q => .fin (-q)
  | .inf => .ninf
  | .ninf => .inf
  | .nan => .nan

def jsAdd : JSNum → JSNum → JSNum
  | .nan, _ => .nan
  | _, .nan => .nan
  | .inf, .ninf => .nan
  | .ninf, .inf => .nan
  | .inf, _ => .inf
  | _, .inf => .inf
  | .ninf, _ => .ninf
  | _, .ninf => .ninf
  | .fin a, .fin b => .fin (a + b)

def jsSub (a b : JSNum) : JSNum := jsAdd a b.neg

def jsMul : JSNum → JSNum → JSNum
  | .nan, _ => .nan
  | _, .nan => .nan
  | .fin a, .fin b => .fin (a * b)
  | .fin a, .inf => if 0 < a then .inf else if a < 0 then .ninf else .nan
  | .fin a, .ninf => if 0 < a then .ninf else if a < 0 then .inf else .nan
  | .inf, .fin b => if 0 < b then .inf else if b < 0 then .ninf else .nan
  | .ninf, .fin b => if 0 < b then .ninf else if b < 0 then .inf else .nan
  | .inf, .inf => .inf
  | .inf, .ninf => .ninf
  | .ninf, .inf => .ninf
  | .ninf, .ninf => .inf

/-- The whitespace characters trimmed by the string-to-number conversion and
`String.prototype.trim` (restricted to the ASCII whitespace occurring here). -/
def wsChar (c : Char) : Bool :=
  c == ' ' || c == '\t' || c == '\n' || c == '\r'

/-- JavaScript `trim`: drop whitespace from both ends. -/
def jsTrim (cs : List Char) : List Char :=
  ((cs.dropWhile wsChar).reverse.dropWhile wsChar).reverse

/-- Digit string to natural number. -/
def digitsToNat (cs : List Char) : ℕ :=
  cs.foldl (fun a c => a * 10 + (c.toNat - '0'.toNat)) 0

/-- Parse an unsigned decimal numeric literal (`digits [. digits] [e|E [±] digits]`,
with at least one digit around the point), returning its exact value; `none`
when the characters are not entirely such a literal.  Models the decimal part
of the ECMAScript `StringNumericLiteral` grammar; the hexadecimal, octal and
binary literal forms are not modelled. -/
def parseDecTail (cs : List Char) : Option ℚ :=
  let p1 := cs.span Char.isDigit
  let p2 : List Char × List Char :=
    match p1.2 with
    | '.' :: rr => rr.span Char.isDigit
    | _ => ([], p1.2)
  if p1.1.isEmpty && p2.1.isEmpty then none
  else
    let base : ℚ := (digitsToNat p1.1 : ℚ) + (digitsToNat p2.1 : ℚ) / ((10 : ℚ) ^ p2.1.length)
    match p2.2 with
    | [] => some base
    | e :: r3 =>
      if e == 'e' || e == 'E' then
        let sgn : Bool × List Char :=
          match r3 with
          | '+' :: rr => (false, rr)
          | '-' :: rr => (true, rr)
          | _ => (false, r3)
        let p3 := sgn.2.span Char.isDigit
        if p3.1.isEmpty || !p3.2.isEmpty then none
        else some (base * (if sgn.1 then 1 / (10 : ℚ) ^ digitsToNat p3.1 else (10 : ℚ) ^ digitsToNat p3.1))
      else none

/-- JavaScript `Number(string)`: trim whitespace; the empty string is `0`;
an optional sign followed by `Infinity` or a decimal literal; anything else is
`NaN`.  (Hexadecimal/octal/binary string forms are not modelled.) -/
def strToNum (s : String) : JSNum :=
  let cs := jsTrim s.data
  if cs.isEmpty then .fin 0
  else
    let sg : Bool × List Char :=
      match cs with
      | '+' :: r => (false, r)
      | '-' :: r => (true, r)
      | _ => (false, cs)
    if sg.2 == "Infinity".data then (if sg.1 then .ninf else .inf)
    else
      match parseDecTail sg.2 with
      | some q => .fin (if sg.1 then -q else q)
      | none => .nan

/-- JavaScript `Number(v)` on a present cell value. -/
def jsNumber : Value → JSNum
  | .num q => .fin q
  | .null => .fin 0
  | .bool b => .fin (if b then 1 else 0)
  | .str s => strToNum s

/-- JavaScript `Number(v)` on a possibly-absent value: `Number(undefined) = NaN`. -/
def jsNumberOpt : Option Value → JSNum
  | none => .nan
  | some v => jsNumber v

/-! ## Substring search (the semantics of JavaScript `RegExp.test` on a
literal-alternation pattern) -/

/-- `startsWithL needle hay`: `needle` is an initial segment of `hay`. -/
def startsWithL : List Char → List Char → Bool
  | [], _ => true
  | _ :: _, [] => false
  | a :: as, b :: bs => a == b && startsWithL as bs

/-- `containsTok pat hay`: `pat` occurs as a contiguous segment of `hay` —
the meaning of an unanchored regex `test` with a literal alternative. -/
def containsTok (pat : List Char) : List Char → Bool
  | [] => pat.isEmpty
  | c :: rest => startsWithL pat (c :: rest) || containsTok pat rest

/-- Case-insensitive test of a literal-alternation regex against a question,
per `/alt1|alt2|…/i.test(question)`: lower-case the text and look for any of
the (lower-case) alternatives as a substring. -/
def testRe (q : String) (pats : List String) : Bool :=
  pats.any fun p => containsTok p.data (q.data.map Char.toLower)

/-- `aiServiceGemini.ts` line 100: the `isTrend` alternatives. -/
def trendWords : List String :=
  ["trend", "over time", "change", "growth", "increase", "decrease"]

/-- `aiServiceGemini.ts` line 103: the `isCorrelation` alternatives. -/
def corrWords : List String :=
  ["correlat", "relationship", "connect", "affect", "impact"]

/-- `aiServiceGemini.ts` line 106: the `isComparison` alternatives (computed by
the source but not gating any branch). -/
def comparWords : List String :=
  ["compar", "versus", "vs", "difference", "between"]

/-- `aiServiceGemini.ts` line 107: the `isDistribution` alternatives. -/
def distWords : List String :=
  ["distribut", "spread", "range", "average", "mean", "median"]

/-! ## Date heuristic (`dataParser.ts` `isValidDate`) -/

/-- Consume exactly `n` digits from the front, returning the rest. -/
def takeDigits : ℕ → List Char → Option (List Char)
  | 0, cs => some cs
  | n + 1, c :: cs => if c.isDigit then takeDigits n cs else none
  | _ + 1, [] => none

/-- Consume one expected character. -/
def takeChar (c : Char) : List Char → Option (List Char)
  | d :: cs => if d == c then some cs else none
  | [] => none

/-- The regex alternative `\d{4}-\d{2}-\d{2}` matches at the head of `cs`. -/
def isoAt (cs : List Char) : Bool :=
  (do
    let r1 ← takeDigits 4 cs
    let r2 ← takeChar '-' r1
    let r3 ← takeDigits 2 r2
    let r4 ← takeChar '-' r3
    let _ ← takeDigits 2 r4
    pure ()).isSome

/-- The regex alternative `\d{1,2}\/\d{1,2}\/\d{2,4}` matches at the head of
`cs` (backtracking over the bounded repetitions is an existential over the
repetition counts). -/
def slashAt (cs : List Char) : Bool :=
  [1, 2].any fun a =>
    [1, 2].any fun b =>
      [2, 3, 4].any fun c =>
        (do
          let r1 ← takeDigits a cs
          let r2 ← takeChar '/' r1
          let r3 ← takeDigits b r2
          let r4 ← takeChar '/' r3
          let _ ← takeDigits c r4
          pure ()).isSome

/-- Unanchored search: the predicate holds at some suffix. -/
def anySuffix (f : List Char → Bool) : List Char → Bool
  | [] => f []
  | c :: rest => f (c :: rest) || anySuffix f rest

/-- `dataParser.ts` line 94: unanchored test of
`/\d{4}-\d{2}-\d{2}|\d{1,2}\/\d{1,2}\/\d{2,4}/` against the value. -/
def hasDateFormat (s : String) : Bool :=
  anySuffix (fun cs => isoAt cs || slashAt cs) s.data

/-- Modelled from the host `new Date(string)` parser (`dataParser.ts` line 92),
restricted to the two textual shapes the classifier combines it with:
a full `YYYY-MM-DD` with month `01..12` and day `01..31`, or a full
`M/D/YY`-to-`M/D/YYYY` form with month `1..12` and day `1..31`, is a valid
date; every other string is treated as an invalid date.  Both the claim and
the code apply this predicate through the identical `isValidDate` conjunction,
so no verified claim depends on its extension beyond these shapes. -/
def jsDateParses (s : String) : Bool :=
  let cs := s.data
  let iso :=
    match cs with
    | [y1, y2, y3, y4, h1, m1, m2, h2, d1, d2] =>
      [y1, y2, y3, y4, m1, m2, d1, d2].all Char.isDigit && h1 == '-' && h2 == '-' &&
        (let m := digitsToNat [m1, m2]
         let d := digitsToNat [d1, d2]
         decide (1 ≤ m) && decide (m ≤ 12) && decide (1 ≤ d) && decide (d ≤ 31))
    | _ => false
  let slash :=
    let p1 := cs.span Char.isDigit
    match p1.2 with
    | '/' :: r1 =>
      let p2 := r1.span Char.isDigit
      (match p2.2 with
       | '/' :: r2 =>
         let p3 := r2.span Char.isDigit
         p3.2.isEmpty && !p3.1.isEmpty && !p1.1.isEmpty && !p2.1.isEmpty &&
           decide (p1.1.length ≤ 2) && decide (p2.1.length ≤ 2) && decide (p3.1.length ≤ 4) &&
           (let m := digitsToNat p1.1
            let d := digitsToNat p2.1
            decide (1 ≤ m) && decide (m ≤ 12) && decide (1 ≤ d) && decide (d ≤ 31))
       | _ => false)
    | _ => false
  iso || slash

/-- `dataParser.ts` `isValidDate`: only strings qualify, and they must both
parse as a valid date and pass the textual date-format test. -/
def isValidDate : Value → Bool
  | .str s => jsDateParses s && hasDateFormat s
  | _ => false

/-! ## Data model (`src/lib/type.ts`) -/

/-- Column classification: `"number" | "string" | "date"`. -/
inductive ColType where
  | number
  | string
  | date
deriving DecidableEq

/-- `ParsedData.summary`. -/
structure Summary where
  totalRows : ℕ
  totalColumns : ℕ
  missingValues : ℕ
  numericColumns : List String
  textColumns : List String
  dateColumns : List String
deriving DecidableEq

/-- `ParsedData` — the Dataset produced by ingestion.  `columnTypes`
(a JS record built by inserting in header order) is an ordered association
list. -/
structure ParsedData where
  headers : List String
  rows : List Row
  rowCount : ℕ
  columnTypes : List (String × ColType)
  summary : Summary
deriving DecidableEq

/-- `DataQualityIssue.type`. -/
inductive IssueType where
  | missing
  | outlier
  | duplicate
  | invalid
deriving DecidableEq

/-- `DataQualityIssue.severity`. -/
inductive Severity where
  | low
  | medium
  | high
deriving DecidableEq

/-- `DataQualityIssue`. -/
structure DataQualityIssue where
  type : IssueType
  severity : Severity
  description : String
  affectedRows : Option (List ℕ)
  affectedColumns : Option (List String)
deriving DecidableEq

/-! ## Ingestion: `analyzeData` (`dataParser.ts` lines 36–88) -/

/-- A cell is "missing" when `row[header] == null || row[header] === ""`
(loose `== null` also covers an absent key / `undefined`). -/
def isMissingCell : Option Value → Bool
  | none => true
  | some .null => true
  | some (.str s) => s == ""
  | some _ => false

/-- The per-header sample: values of the first (at most) 10 rows for the
header, with `null`/`undefined` excluded (`v != null` keeps empty strings). -/
def sampleValues (rows : List Row) (header : String) : List Value :=
  ((rows.take 10).map fun r => assocLookup r header).filterMap fun o =>
    match o with
    | none => none
    | some .null => none
    | some v => some v

/-- The `number` test for one sampled value:
`typeof v === "number" || !isNaN(Number(v))`. -/
def numericSample (v : Value) : Bool :=
  (match v with | .num _ => true | _ => false) || !(jsNumber v).isNaN

/-- Column classification, first match wins (`dataParser.ts` lines 51–57):
`number` when every sampled value passes the numeric test (vacuously true on
an empty sample), else `date` when some sampled value is a valid date, else
`string`. -/
def detectColumnType (rows : List Row) (header : String) : ColType :=
  let sample := sampleValues rows header
  if sample.all numericSample then .number
  else if sample.any isValidDate then .date
  else .string

/-- Count of missing cells over all rows × headers. -/
def countMissing (headers : List String) (rows : List Row) : ℕ :=
  rows.foldl (fun acc r => acc + headers.countP fun h => isMissingCell (assocLookup r h)) 0

/-- `analyzeData`: `none` models the thrown `EmptyInputError` on zero rows;
otherwise headers are the first row's keys in order, column types are
inferred per header, missing cells are counted, and the three column
partitions are derived from the inferred types.  The rows themselves are
returned unchanged. -/
def analyzeData (rows : List Row) : Option ParsedData :=
  match rows with
  | [] => none
  | r0 :: _ =>
    let headers := r0.map Prod.fst
    let columnTypes := headers.map fun h => (h, detectColumnType rows h)
    let missingValues := countMissing headers rows
    let numericColumns := headers.filter fun h => assocLookup columnTypes h == some ColType.number
    let textColumns := headers.filter fun h => assocLookup columnTypes h == some ColType.string
    let dateColumns := headers.filter fun h => assocLookup columnTypes h == some ColType.date
    some
      { headers := headers
        rows := rows
        rowCount := rows.length
        columnTypes := columnTypes
        summary :=
          { totalRows := rows.length
            totalColumns := headers.length
            missingValues := missingValues
            numericColumns := numericColumns
            textColumns := textColumns
            dateColumns := dateColumns } }

/-! ## Quality assessment: `detectQualityIssues` (`dataParser.ts` lines 100–151) -/

/-- JavaScript `toFixed(1)` for the nonnegative values produced here:
round to the nearest tenth, ties toward the larger value, and print with one
digit after the point. -/
def toFixed1 (q : ℚ) : String :=
  let n : ℤ := Rat.floor (q * 10 + 1 / 2)
  let a := n / 10
  let b := n % 10
  s!"{a}.{b}"

/-- `missingPercentage` — `missingValues / (rowCount × headers.length) × 100`. -/
def missingPct (d : ParsedData) : ℚ :=
  (d.summary.missingValues : ℚ) / ((d.rowCount : ℚ) * (d.headers.length : ℚ)) * 100

/-- The missing-data block (`dataParser.ts` lines 104–112). -/
def missingIssueList (d : ParsedData) : List DataQualityIssue :=
  if missingPct d > 5 then
    [{ type := .missing
       severity := if missingPct d > 20 then .high else .medium
       description :=
         let t := toFixed1 (missingPct d)
         s!"{t}% of data points are missing"
       affectedRows := none
       affectedColumns := none }]
  else []

/-- The small-sample block (`dataParser.ts` lines 115–122). -/
def smallSampleIssueList (d : ParsedData) : List DataQualityIssue :=
  if d.rowCount < 10 then
    [{ type := .invalid
       severity := .high
       description := "Sample size is very small (< 10 rows). Insights may not be reliable."
       affectedRows := none
       affectedColumns := none }]
  else []

/-- Insert into an ascending list — one step of the sort. -/
def insertAsc (x : JSNum) : List JSNum → List JSNum
  | [] => [x]
  | y :: ys => if jsLe x y then x :: y :: ys else y :: insertAsc x ys

/-- `[...values].sort((a, b) => a - b)`: the ascending reordering of the
values (an insertion sort; stability is irrelevant for numbers). -/
def sortAsc (l : List JSNum) : List JSNum :=
  l.foldr insertAsc []

/-- The coerced numeric values of a column: every row value through
`Number(...)`, with `NaN` results dropped (`dataParser.ts` lines 126–128).
Note an explicit `null` cell coerces to `0` and is kept. -/
def colValues (d : ParsedData) (col : String) : List JSNum :=
  (d.rows.map fun r => jsNumberOpt (assocLookup r col)).filter fun v => !v.isNaN

def colSorted (d : ParsedData) (col : String) : List JSNum :=
  sortAsc (colValues d col)

/-- `sorted[Math.floor(sorted.length * 0.25)]`. -/
def q1Of (d : ParsedData) (col : String) : JSNum :=
  (colSorted d col).getD (Rat.floor (((colSorted d col).length : ℚ) * 0.25)).toNat (.fin 0)

/-- `sorted[Math.floor(sorted.length * 0.75)]`. -/
def q3Of (d : ParsedData) (col : String) : JSNum :=
  (colSorted d col).getD (Rat.floor (((colSorted d col).length : ℚ) * 0.75)).toNat (.fin 0)

def iqrOf (d : ParsedData) (col : String) : JSNum :=
  jsSub (q3Of d col) (q1Of d col)

/-- `lowerBound = q1 - 1.5 * iqr`. -/
def lowerBoundOf (d : ParsedData) (col : String) : JSNum :=
  jsSub (q1Of d col) (jsMul (.fin 1.5) (iqrOf d col))

/-- `upperBound = q3 + 1.5 * iqr`. -/
def upperBoundOf (d : ParsedData) (col : String) : JSNum :=
  jsAdd (q3Of d col) (jsMul (.fin 1.5) (iqrOf d col))

/-- `values.filter(v => v < lowerBound || v > upperBound)`. -/
def outliersOf (d : ParsedData) (col : String) : List JSNum :=
  (colValues d col).filter fun v => jsLt v (lowerBoundOf d col) || jsLt (upperBoundOf d col) v

/-- The issue pushed for the outliers of one column, constructed from the
outlier list (`dataParser.ts` lines 139–146): emitted only when there is at
least one outlier and the outlier fraction exceeds `0.05`. -/
def emitOutlier (d : ParsedData) (col : String) (outliers : List JSNum) : Option DataQualityIssue :=
  if 0 < outliers.length ∧ ((outliers.length : ℚ) / ((colValues d col).length : ℚ)) > 0.05 then
    some
      { type := .outlier
        severity := .medium
        description :=
          let cnt := outliers.length
          let t := toFixed1 ((outliers.length : ℚ) / ((colValues d col).length : ℚ) * 100)
          s!"{col} has {cnt} outliers ({t}%)"
        affectedRows := none
        affectedColumns := some [col] }
  else none

/-- The per-column outlier block (`dataParser.ts` lines 125–148): only columns
with at least one coerced numeric value are examined. -/
def outlierIssueFor (d : ParsedData) (col : String) : Option DataQualityIssue :=
  if 0 < (colValues d col).length then emitOutlier d col (outliersOf d col)
  else none

/-- `detectQualityIssues`: the missing-data issue, then the small-sample
issue, then one optional outlier issue per numeric column, in that order. -/
def detectQualityIssues (d : ParsedData) : List DataQualityIssue :=
  missingIssueList d ++ smallSampleIssueList d ++
    d.summary.numericColumns.filterMap (outlierIssueFor d)

/-! ## Context serializer: `formatDataForAI` (`dataParser.ts` lines 153–178) -/

/-- The structural content of the context digest.  The source serializes this
structure to JSON text; the spec (§4.4, §6) marks the textual encoding an
external-interface concern and the field content/selection the core contract,
so the digest is modelled structurally. -/
structure Digest where
  schema : List (String × Option ColType)
  rowCount : ℕ
  summary : Summary
  sampleRows : List Row
deriving DecidableEq

/-- `formatDataForAI`: schema as `(name, columnTypes[name])` pairs in header
order, the row count, the summary, and a row sample of the first 5 rows
followed — only when `rows.length > 10` — by the last 5 rows (`slice(-5)`). -/
def formatDataForAI (d : ParsedData) : Digest :=
  { schema := d.headers.map fun h => (h, assocLookup d.columnTypes h)
    rowCount := d.rowCount
    summary := d.summary
    sampleRows :=
      d.rows.take 5 ++ (if 10 < d.rows.length then d.rows.drop (d.rows.length - 5) else []) }

/-! ## Insight model (`src/lib/type.ts`) -/

inductive VizType where
  | line
  | bar
  | scatter
  | area
  | pie
  | histogram
deriving DecidableEq

inductive PatternType where
  | trend
  | correlation
  | outlier
  | distribution
  | comparison
deriving DecidableEq

/-- `Pattern.visualization`: a visualization type with its config object
(modelled as string key/value pairs, the shape the source builds). -/
structure Viz where
  type : VizType
  config : List (String × String)
deriving DecidableEq

structure Pattern where
  type : PatternType
  description : String
  confidence : ℤ
  dataPoints : Option (List String)
  visualization : Option Viz
deriving DecidableEq

structure Metadata where
  tokensUsed : Option ℕ
  processingTime : Option ℕ
  modelUsed : Option String
deriving DecidableEq

structure AIInsight where
  summary : String
  confidence : ℤ
  patterns : List Pattern
  suggestedViz : Option VizType
  warnings : Option (List String)
  metadata : Metadata
deriving DecidableEq

/-! ## Local heuristic: `getMockResponse` (`aiServiceGemini.ts` lines 91–187) -/

def smallSampleWarning : String := "Small sample size may affect reliability"

def missingValuesWarning : String := "High percentage of missing values detected"

def moreSpecificWarning : String := "Question could be more specific for better insights"

/-- `data.rowCount < 20`. -/
def smallB (d : ParsedData) : Bool := decide (d.rowCount < 20)

/-- `data.summary.missingValues > data.rowCount * data.headers.length * 0.1`. -/
def missingHighB (d : ParsedData) : Bool :=
  decide ((d.summary.missingValues : ℚ) > (d.rowCount : ℚ) * (d.headers.length : ℚ) * 0.1)

/-- The confidence/warning adjustment of `aiServiceGemini.ts` lines 111–125:
start at 75; subtract 20 and warn when the sample is small; subtract 15 and
warn when missing values exceed the 10% threshold. -/
def mockAdjust (d : ParsedData) : ℤ × List String :=
  let p1 : ℤ × List String :=
    if smallB d then (75 - 20, [smallSampleWarning]) else (75, [])
  if missingHighB d then (p1.1 - 15, p1.2 ++ [missingValuesWarning]) else p1

/-- `isTrend && data.summary.numericColumns.length > 0`. -/
def cTrendB (q : String) (d : ParsedData) : Bool :=
  testRe q trendWords && decide (0 < d.summary.numericColumns.length)

/-- `isCorrelation && data.summary.numericColumns.length >= 2`. -/
def cCorrB (q : String) (d : ParsedData) : Bool :=
  testRe q corrWords && decide (2 ≤ d.summary.numericColumns.length)

/-- `isDistribution && data.summary.numericColumns.length > 0`. -/
def cDistB (q : String) (d : ParsedData) : Bool :=
  testRe q distWords && decide (0 < d.summary.numericColumns.length)

/-- `patterns[0]?.visualization?.type`. -/
def vizOfHead (ps : List Pattern) : Option VizType :=
  (ps.head?.bind Pattern.visualization).map Viz.type

/-- `warnings.length > 0 ? warnings : undefined`. -/
def optWarnings (ws : List String) : Option (List String) :=
  if 0 < ws.length then some ws else none

/-- The metadata of every mock insight (`aiServiceGemini.ts` lines 181–185). -/
def mockMeta : Metadata :=
  { tokensUsed := some 850, processingTime := some 1500, modelUsed := some "mock-response" }

/-- `getMockResponse`: intent-gated pattern selection in the fixed priority
order trend → correlation → distribution → generic fallback, over the
adjusted base confidence.  (The source also computes the unused
`isComparison` flag, see `comparWords`; the repository stores the correlation
summary's `≈` with mangled bytes, reproduced here as the intended character.
Summary wording is marked non-contractual by spec §4.5.) -/
def getMockResponse (question : String) (data : ParsedData) : AIInsight :=
  let a := mockAdjust data
  let confidence := a.1
  let warnings0 := a.2
  let nc := data.summary.numericColumns
  let rc := data.rowCount
  if cTrendB question data then
    let column := nc.getD 0 ""
    let patterns : List Pattern :=
      [{ type := .trend
         description := s!"{column} shows an upward trend with some fluctuations"
         confidence := confidence
         dataPoints := none
         visualization := some { type := .line, config := [("xAxis", "index"), ("yAxis", column)] } }]
    { summary := s!"Based on the analysis of {rc} data points, there\x27s a noticeable upward trend in {column}. The pattern suggests consistent growth with minor variations."
      confidence := confidence
      patterns := patterns
      suggestedViz := vizOfHead patterns
      warnings := optWarnings warnings0
      metadata := mockMeta }
  else if cCorrB question data then
    let col1 := nc.getD 0 ""
    let col2 := nc.getD 1 ""
    let patterns : List Pattern :=
      [{ type := .correlation
         description := s!"Moderate positive correlation detected between {col1} and {col2}"
         confidence := confidence - 10
         dataPoints := none
         visualization := some { type := .scatter, config := [("xAxis", col1), ("yAxis", col2)] } }]
    { summary := s!"Analysis reveals a moderate positive correlation (r ≈ 0.65) between {col1} and {col2}. As {col1} increases, {col2} tends to increase as well, though the relationship isn\x27t perfectly linear."
      confidence := confidence
      patterns := patterns
      suggestedViz := vizOfHead patterns
      warnings := optWarnings warnings0
      metadata := mockMeta }
  else if cDistB question data then
    let column := nc.getD 0 ""
    let patterns : List Pattern :=
      [{ type := .distribution
         description := s!"{column} follows a roughly normal distribution"
         confidence := confidence
         dataPoints := none
         visualization := some { type := .histogram, config := [("column", column)] } }]
    { summary := s!"The distribution of {column} appears roughly normal with most values concentrated around the mean. There are a few outliers on both ends that warrant closer inspection."
      confidence := confidence
      patterns := patterns
      suggestedViz := vizOfHead patterns
      warnings := optWarnings warnings0
      metadata := mockMeta }
  else
    let hc := data.headers.length
    let ncl := nc.length
    let patterns : List Pattern :=
      [{ type := .comparison
         description := "General data overview available"
         confidence := confidence - 20
         dataPoints := none
         visualization := none }]
    { summary := s!"Based on {rc} records across {hc} columns, the data shows interesting patterns. {ncl} numeric columns are available for quantitative analysis."
      confidence := confidence
      patterns := patterns
      suggestedViz := vizOfHead patterns
      warnings := optWarnings (warnings0 ++ [moreSpecificWarning])
      metadata := mockMeta }

/-! ## Remote path: fence stripping, JSON parsing, `queryAI`
(`aiServiceGemini.ts` lines 27–88) -/

/-- `text.replace(/```json\n?|\n?```/g, "")`: a left-to-right non-overlapping
scan; at each position the first alternative (the fence opener with its
optional trailing newline, greedily) is tried before the second (an optional
newline followed by a bare fence).  Fuel is the input length; every recursive
step consumes at least one character, so the fuel never runs out. -/
def stripFencesAux : ℕ → List Char → List Char
  | 0, cs => cs
  | _ + 1, [] => []
  | f + 1, c :: rest =>
    if startsWithL "```json".data (c :: rest) then
      match (c :: rest).drop 7 with
      | '\n' :: r2 => stripFencesAux f r2
      | r => stripFencesAux f r
    else if startsWithL "\n```".data (c :: rest) then
      stripFencesAux f ((c :: rest).drop 4)
    else if startsWithL "```".data (c :: rest) then
      stripFencesAux f ((c :: rest).drop 3)
    else c :: stripFencesAux f rest

def stripFences (cs : List Char) : List Char :=
  stripFencesAux cs.length cs

/-- A parsed JSON value. -/
inductive JVal where
  | jnull
  | jbool (b : Bool)
  | jnum (q : ℚ)
  | jstr (s : String)
  | jarr (xs : List JVal)
  | jobj (fs : List (String × JVal))

def skipWs (cs : List Char) : List Char :=
  cs.dropWhile wsChar

/-- Characters a JSON numeric literal may use. -/
def numChar (c : Char) : Bool :=
  c.isDigit || c == '-' || c == '+' || c == '.' || c == 'e' || c == 'E'

/-- A signed decimal literal (sign then `parseDecTail`). -/
def parseSignedDec (cs : List Char) : Option ℚ :=
  match cs with
  | '-' :: r => (parseDecTail r).map fun q => -q
  | '+' :: r => parseDecTail r
  | _ => parseDecTail cs

mutual

/-- Recursive-descent model of `JSON.parse` (value position).  Fuel bounds the
recursion; `jsonParse` supplies enough for any input it is applied to.
String escapes inside JSON strings are not interpreted (a string runs to the
next quote), and the numeric grammar is the decimal grammar of
`parseDecTail`; no verified claim depends on acceptance beyond this subset. -/
def parseJVal : ℕ → List Char → Option (JVal × List Char)
  | 0, _ => none
  | f + 1, cs0 =>
    let cs := skipWs cs0
    match cs with
    | [] => none
    | c :: rest =>
      if startsWithL "null".data cs then some (.jnull, cs.drop 4)
      else if startsWithL "true".data cs then some (.jbool true, cs.drop 4)
      else if startsWithL "false".data cs then some (.jbool false, cs.drop 5)
      else if c == '"' then
        let p := rest.span fun ch => ch != '"'
        match p.2 with
        | '"' :: r2 => some (.jstr ⟨p.1⟩, r2)
        | _ => none
      else if c == '[' then
        match skipWs rest with
        | ']' :: r2 => some (.jarr [], r2)
        | r => (parseJItems f r).map fun x => (.jarr x.1, x.2)
      else if c == '{' then
        match skipWs rest with
        | '}' :: r2 => some (.jobj [], r2)
        | r => (parseJFields f r).map fun x => (.jobj x.1, x.2)
      else
        let p := cs.span numChar
        if p.1.isEmpty then none
        else
          match parseSignedDec p.1 with
          | some q => some (.jnum q, p.2)
          | none => none

/-- One-or-more comma-separated array items followed by `]`. -/
def parseJItems : ℕ → List Char → Option (List JVal × List Char)
  | 0, _ => none
  | f + 1, cs =>
    match parseJVal f cs with
    | none => none
    | some (v, r) =>
      match skipWs r with
      | ',' :: r2 =>
        (parseJItems f r2).map fun x => (v :: x.1, x.2)
      | ']' :: r2 => some ([v], r2)
      | _ => none

/-- One-or-more comma-separated object fields followed by `}`. -/
def parseJFields : ℕ → List Char → Option (List (String × JVal) × List Char)
  | 0, _ => none
  | f + 1, cs =>
    match skipWs cs with
    | '"' :: rest =>
      let p := rest.span fun ch => ch != '"'
      (match p.2 with
       | '"' :: r2 =>
         (match skipWs r2 with
          | ':' :: r3 =>
            (match parseJVal f r3 with
             | some (v, r4) =>
               (match skipWs r4 with
                | ',' :: r5 => (parseJFields f r5).map fun x => ((⟨p.1⟩, v) :: x.1, x.2)
                | '}' :: r5 => some ([(⟨p.1⟩, v)], r5)
                | _ => none)
             | none => none)
          | _ => none)
       | _ => none)
    | _ => none

end

/-- `JSON.parse(cleanText)` as a total function: `none` models a thrown
`SyntaxError`.  A successful parse must consume the whole input (up to
trailing whitespace). -/
def jsonParse (cs : List Char) : Option JVal :=
  match parseJVal (cs.length + 8) cs with
  | some (j, r) => if (skipWs r).isEmpty then some j else none
  | none => none

/-- Object-field lookup on a parsed JSON value. -/
def jFieldStr (j : JVal) (k : String) : Option String :=
  match j with
  | .jobj fs =>
    match assocLookup fs k with
    | some (.jstr s) => some s
    | _ => none
  | _ => none

def jFieldNum (j : JVal) (k : String) : Option ℚ :=
  match j with
  | .jobj fs =>
    match assocLookup fs k with
    | some (.jnum q) => some q
    | _ => none
  | _ => none

/-- The insight assembled from a successfully parsed remote response
(`{...parsed, metadata: {...parsed.metadata, processingTime, modelUsed}}`).
The source spreads the untyped JSON object into the Insight record; this model
extracts the scalar fields it can and is schematic about the rest — the
success path carries no verified claim, every claim below concerns the other
terminal paths.  `processingTime` is the unmodelled wall-clock delta. -/
def remoteParsedInsight (j : JVal) : AIInsight :=
  { summary := (jFieldStr j "summary").getD ""
    confidence := ((jFieldNum j "confidence").getD 0).floor
    patterns := []
    suggestedViz := none
    warnings := none
    metadata := { tokensUsed := none, processingTime := none, modelUsed := some "gemini-1.5-pro" } }

def parseFailWarning : String := "Unable to parse structured response. Showing raw AI output."

/-- The degraded partial insight returned when the remote text fails to parse
(`aiServiceGemini.ts` lines 70–81): the first 500 characters of the *raw*
text as summary, confidence fixed at 50, no patterns, a parse warning, and
the remote model identifier.  `processingTime` is the unmodelled wall-clock
delta. -/
def degradedInsight (text : String) : AIInsight :=
  { summary := ⟨text.data.take 500⟩
    confidence := 50
    patterns := []
    suggestedViz := none
    warnings := some [parseFailWarning]
    metadata := { tokensUsed := none, processingTime := none, modelUsed := some "gemini-1.5-pro" } }

/-- The outcome of the single remote attempt, as seen by `queryAI`:
`unavailable` — no client/credential could be initialized (`getGeminiAI`
returned null); `failure` — the remote call threw; `success text` — the call
returned `text`. -/
inductive Remote where
  | unavailable
  | failure
  | success (text : String)

/-- `queryAI` (`aiServiceGemini.ts` lines 27–88).  Every path of the source
either returns a value or catches its exception and returns a value, so the
model is a total function: absence of a provider and a thrown remote error
both resolve to the local heuristic; a returned text is stripped of fence
markup, trimmed and JSON-parsed, a parse failure resolving to the degraded
partial insight built from the raw text. -/
def queryAI (remote : Remote) (question : String) (data : ParsedData) : AIInsight :=
  match remote with
  | .unavailable => getMockResponse question data
  | .failure => getMockResponse question data
  | .success text =>
    let cleanText := jsTrim (stripFences text.data)
    match jsonParse cleanText with
    | some j => remoteParsedInsight j
    | none => degradedInsight text

/-! ## Concrete datasets used by witnesses and test-vector conjuncts -/

/-- Placeholder dataset used only to strip the `Option` from `analyzeData` on
inputs known to succeed. -/
def pdDefault : ParsedData :=
  { headers := [], rows := [], rowCount := 0, columnTypes := [],
    summary := { totalRows := 0, totalColumns := 0, missingValues := 0,
                 numericColumns := [], textColumns := [], dateColumns := [] } }

/-- 15 rows of one numeric column — the spec's `rowCount = 15` confidence case. -/
def raws15 : List Row := (List.range 15).map fun i => [("sales", Value.num (i + 1))]

def d15 : ParsedData := (analyzeData raws15).getD pdDefault

/-- 100 rows × 2 headers with exactly 12 missing cells — the spec's
missing-percentage case. -/
def raws100 : List Row := (List.range 100).map fun i =>
  [("a", Value.num i), ("b", if i < 12 then Value.null else Value.num i)]

def d100 : ParsedData := (analyzeData raws100).getD pdDefault

/-- One numeric column holding `[1,…,9,100]` — the spec's outlier boundary case. -/
def raws10 : List Row :=
  ((List.range 9).map fun i => [("v", Value.num (i + 1))]) ++ [[("v", Value.num 100)]]

def d10 : ParsedData := (analyzeData raws10).getD pdDefault

/-- Two raw rows with disjoint key sets: the second row does not expose the
dataset's (first-row) header. -/
def raws7 : List Row := [[("a", Value.num 1)], [("b", Value.num 2)]]

/-- A single row whose only cell is the string `"Infinity"`:
`Number("Infinity")` is `Infinity`, which is not `NaN` but is not finite. -/
def rawsInf : List Row := [[("h", Value.str "Infinity")]]

/-- Three rows of one numeric column, for the small-digest witness. -/
def raws3 : List Row := (List.range 3).map fun i => [("x", Value.num i)]

def d3 : ParsedData := (analyzeData raws3).getD pdDefault

/-! ## Helper lemmas -/

theorem assocLookup_map_self {β : Type} (f : String → β) (l : List String) (h : String)
    (hm : h ∈ l) : assocLookup (l.map fun x => (x, f x)) h = some (f h) := by
  induction l with
  | nil => cases hm
  | cons a t ih =>
    simp only [List.map_cons, assocLookup]
    by_cases hae : a = h
    · subst hae; simp
    · have : (a == h) = false := by simpa [beq_iff_eq] using hae
      rw [this]
      simp only [Bool.false_eq_true, if_false]
      rcases List.mem_cons.mp hm with h1 | h1
      · exact absurd h1.symm hae
      · exact ih h1

theorem assocLookup_eq_none_of_not_mem {α : Type} (r : List (String × α)) (h : String)
    (hm : h ∉ r.map Prod.fst) : assocLookup r h = none := by
  induction r with
  | nil => rfl
  | cons p t ih =>
    simp only [List.map_cons, List.mem_cons, not_or] at hm
    simp only [assocLookup]
    have : (p.1 == h) = false := by simpa [beq_iff_eq] using fun e => hm.1 e.symm
    cases p
    rw [this]
    simp only [Bool.false_eq_true, if_false]
    exact ih hm.2

theorem mem_insertAsc {x y : JSNum} {l : List JSNum} :
    y ∈ insertAsc x l ↔ y = x ∨ y ∈ l := by
  induction l with
  | nil => simp [insertAsc]
  | cons a t ih =>
    simp only [insertAsc]
    cases hle : jsLe x a with
    | true => simp
    | false =>
      simp only [Bool.false_eq_true, if_false, List.mem_cons, ih]
      tauto

theorem mem_sortAsc {y : JSNum} {l : List JSNum} : y ∈ sortAsc l ↔ y ∈ l := by
  induction l with
  | nil => simp [sortAsc]
  | cons a t ih =>
    simp only [sortAsc, List.foldr_cons] at *
    rw [mem_insertAsc, ih, List.mem_cons]

theorem isFinite_getD {l : List JSNum} (hl : l.all JSNum.isFinite = true) (i : ℕ) :
    JSNum.isFinite (l.getD i (.fin 0)) = true := by
  rw [List.getD_eq_getD_get?]
  cases hg : l.get? i with
  | none => rfl
  | some y =>
    have hy : y ∈ l := List.get?_mem hg
    exact (List.all_eq_true.mp hl) y hy

/-! ## C1 — absence of a remote provider resolves to the local heuristic -/

/-- C1.  With no remote provider (no credential, or the client could not be
initialized), `queryAI` resolves to the local heuristic `getMockResponse`:
it returns that insight unchanged — the model is a total function, mirroring
that this path of the source cannot throw — and the insight's
`metadata.modelUsed` is the local/mock identifier `"mock-response"`, its
confidence, patterns and warnings being exactly those the heuristic computes. -/
theorem C1_no_provider_resolves_locally (q : String) (d : ParsedData) :
    queryAI Remote.unavailable q d = getMockResponse q d ∧
      (queryAI Remote.unavailable q d).metadata.modelUsed = some "mock-response" := by
  refine ⟨rfl, ?_⟩
  show (getMockResponse q d).metadata.modelUsed = some "mock-response"
  unfold getMockResponse
  by_cases h1 : cTrendB q d = true <;> by_cases h2 : cCorrB q d = true <;>
    by_cases h3 : cDistB q d = true <;> simp [h1, h2, h3, mockMeta]

/-! ## C9 — malformed remote response degrades to a partial insight -/

/-- C9.  When the remote call returns text that, after stripping code-fence
markup and trimming, fails to JSON-parse, `queryAI` still succeeds and returns
the degraded partial insight: summary = first 500 characters of the raw text,
confidence = 50, no patterns, and the parse-failure warning. -/
theorem C9_malformed_remote_degrades (t q : String) (d : ParsedData)
    (hp : jsonParse (jsTrim (stripFences t.data)) = none) :
    queryAI (Remote.success t) q d = degradedInsight t ∧
      (degradedInsight t).summary = ⟨t.data.take 500⟩ ∧
      (degradedInsight t).confidence = 50 ∧
      (degradedInsight t).patterns = [] ∧
      (degradedInsight t).warnings = some [parseFailWarning] := by
  refine ⟨?_, rfl, rfl, rfl, rfl⟩
  have hstep : queryAI (Remote.success t) q d =
      match jsonParse (jsTrim (stripFences t.data)) with
      | some j => remoteParsedInsight j
      | none => degradedInsight t := rfl
  rw [hstep, hp]

/-- C9 witness: the concrete non-JSON remote text `"not json"` produces the
degraded insight with its stated fields. -/
theorem C9_witness :
    queryAI (Remote.success "not json") "any question" d3 = degradedInsight "not json" ∧
      (degradedInsight "not json").summary = ⟨"not json".data.take 500⟩ ∧
      (degradedInsight "not json").confidence = 50 ∧
      (degradedInsight "not json").patterns = [] ∧
      (degradedInsight "not json").warnings = some [parseFailWarning] :=
  C9_malformed_remote_degrades "not json" "any question" d3 (by rfl)

/-! ## C7 — dataset invariants -/

/-- C7 counterexample.  The claim "every row's key set equals `headers`" is
false on the code: `analyzeData` passes rows through unchanged, so a later
row that lacks the first row's key does not expose the dataset's header.
Concretely, for `[{a: 1}, {b: 2}]` the header list is `["a"]` and the second
row has no key `"a"`. -/
theorem C7_counterexample :
    (analyzeData raws7).map
        (fun d => d.rows.all fun r => d.headers.all fun h => decide (h ∈ r.map Prod.fst)) =
      some false := by
  decide

def d7 : ParsedData := (analyzeData raws7).getD pdDefault

/-- C7 amended.  Every dataset produced by a successful ingestion satisfies:
the rows are the raw rows unchanged (so a row's key set is the raw record's
own key set, equal to `headers` only when the raw rows share the first row's
keys); a header absent from a row reads as null/undefined on lookup (`none`,
which every consumer treats as a missing value); and `rowCount = rows.length`,
`summary.totalColumns = headers.length`, and `columnTypes` has exactly one
entry per header. -/
theorem C7_ingestion_invariants (raw : List Row) (d : ParsedData)
    (h : analyzeData raw = some d) :
    d.rows = raw ∧
      d.rowCount = d.rows.length ∧
      d.summary.totalColumns = d.headers.length ∧
      d.columnTypes.length = d.headers.length ∧
      (d.rows.all fun r =>
          d.headers.all fun hd =>
            decide (hd ∈ r.map Prod.fst) || decide (assocLookup r hd = none)) = true := by
  match raw with
  | [] => simp [analyzeData] at h
  | r0 :: t =>
    simp only [analyzeData, Option.some.injEq] at h
    subst h
    refine ⟨rfl, rfl, rfl, by simp, ?_⟩
    rw [List.all_eq_true]
    intro r hr
    rw [List.all_eq_true]
    intro hd _
    by_cases hmem : hd ∈ r.map Prod.fst
    · simp [hmem]
    · simp [hmem, assocLookup_eq_none_of_not_mem r hd hmem]

/-- C7 witness: the amended invariants at the concrete ingestion of `raws7`. -/
theorem C7_witness :
    d7.rows = raws7 ∧
      d7.rowCount = d7.rows.length ∧
      d7.summary.totalColumns = d7.headers.length ∧
      d7.columnTypes.length = d7.headers.length ∧
      (d7.rows.all fun r =>
          d7.headers.all fun hd =>
            decide (hd ∈ r.map Prod.fst) || decide (assocLookup r hd = none)) = true :=
  C7_ingestion_invariants raws7 d7 (by rfl)

/-! ## C8 — the context digest -/

/-- C8.  For every dataset (with the ingestion invariant tying `rowCount` to
the rows), the digest carries the schema as `(name, type)` pairs in header
order, the row count and the summary, and its row sample is the first 5 rows
concatenated with the last 5 rows exactly when `rowCount > 10`, otherwise the
first 5 rows only — which is all rows when `rowCount ≤ 5`. -/
theorem C8_context_digest (d : ParsedData) (hwf : d.rowCount = d.rows.length) :
    (formatDataForAI d).schema = (d.headers.map fun h => (h, assocLookup d.columnTypes h)) ∧
      (formatDataForAI d).rowCount = d.rowCount ∧
      (formatDataForAI d).summary = d.summary ∧
      (formatDataForAI d).sampleRows =
        (if 10 < d.rowCount then d.rows.take 5 ++ d.rows.drop (d.rows.length - 5)
         else if d.rowCount ≤ 5 then d.rows else d.rows.take 5) := by
  refine ⟨rfl, rfl, rfl, ?_⟩
  show d.rows.take 5 ++ (if 10 < d.rows.length then d.rows.drop (d.rows.length - 5) else []) = _
  rw [hwf]
  by_cases h10 : 10 < d.rows.length
  · simp [h10]
  · simp only [h10, if_false, List.append_nil]
    by_cases h5 : d.rows.length ≤ 5
    · simp [h5, List.take_of_length_le h5]
    · simp [h5]

/-- C8 witness: the digest of the concrete 3-row dataset `d3` — the sample is
all rows since `rowCount ≤ 5`. -/
theorem C8_witness :
    (formatDataForAI d3).schema = (d3.headers.map fun h => (h, assocLookup d3.columnTypes h)) ∧
      (formatDataForAI d3).rowCount = d3.rowCount ∧
      (formatDataForAI d3).summary = d3.summary ∧
      (formatDataForAI d3).sampleRows =
        (if 10 < d3.rowCount then d3.rows.take 5 ++ d3.rows.drop (d3.rows.length - 5)
         else if d3.rowCount ≤ 5 then d3.rows else d3.rows.take 5) :=
  C8_context_digest d3 (by rfl)

/-! ## C4 — schema inference -/

/-- The claim's classification rule as stated: `number` requires every sampled
value to be already numeric or to coerce to a *finite* number; otherwise
`date` when some sampled value passes the date heuristic; otherwise
`string`. -/
def specClassifyFinite (sample : List Value) : ColType :=
  if sample.all fun v => (match v with | .num _ => true | _ => false) || (jsNumber v).isFinite then
    .number
  else if sample.any isValidDate then .date
  else .string

/-- The amended classification rule: `number` requires every sampled value to
be already numeric or to coerce to a number other than `NaN` (so infinite
coercion results such as the string `"Infinity"` also qualify); the date and
string rules are unchanged. -/
def specClassifyNonNaN (sample : List Value) : ColType :=
  if sample.all fun v => (match v with | .num _ => true | _ => false) || !(jsNumber v).isNaN then
    .number
  else if sample.any isValidDate then .date
  else .string

/-- C4 counterexample.  The code's numeric test is `!isNaN(Number(v))`, not
finiteness: on a column whose sole sampled value is the string `"Infinity"`
(which coerces to `Infinity`, non-`NaN` but not finite, and is no date), the
code classifies `number` while the claimed finite-coercion rule yields
`string`. -/
theorem C4_counterexample :
    (analyzeData rawsInf).map (fun d => assocLookup d.columnTypes "h") =
        some (some ColType.number) ∧
      specClassifyFinite (sampleValues rawsInf "h") = ColType.string := by
  constructor
  · decide
  · decide

/-- C4 amended.  For every successful ingestion and every header of the
dataset, the recorded column type is exactly the first-match classification
of the claim's sample (the first 10 rows' values for that header with
null/undefined excluded), with the numeric rule amended from "coerces to a
finite number" to "coerces to a non-`NaN` number"; an empty sample vacuously
satisfies the numeric rule, so an all-null column is classified `number`. -/
theorem C4_schema_inference (raw : List Row) (d : ParsedData) (hd : String)
    (h : analyzeData raw = some d) (hh : hd ∈ d.headers) :
    assocLookup d.columnTypes hd = some (specClassifyNonNaN (sampleValues raw hd)) := by
  match raw with
  | [] => simp [analyzeData] at h
  | r0 :: t =>
    simp only [analyzeData, Option.some.injEq] at h
    subst h
    simp only at hh
    rw [assocLookup_map_self (fun x => detectColumnType (r0 :: t) x) _ hd hh]
    rfl

/-- C4 witness: the amended rule evaluated on the concrete 15-row numeric
dataset classifies its column as `number`. -/
theorem C4_witness :
    assocLookup d15.columnTypes "sales" =
      some (specClassifyNonNaN (sampleValues raws15 "sales")) :=
  C4_schema_inference raws15 d15 "sales" (by rfl) (by decide)

/-! ## C5 — the missing-data issue -/

theorem outlierIssueFor_type (d : ParsedData) (c : String) (i : DataQualityIssue)
    (h : outlierIssueFor d c = some i) : i.type = IssueType.outlier := by
  unfold outlierIssueFor emitOutlier at h
  split at h
  · split at h
    · cases h.symm
      rfl
    · cases h
  · cases h

theorem filter_filterMap_outlier (d : ParsedData) (cols : List String) :
    ((cols.filterMap (outlierIssueFor d)).filter fun i => decide (i.type = IssueType.outlier)) =
      cols.filterMap (outlierIssueFor d) := by
  rw [List.filter_eq_self]
  intro i hi
  obtain ⟨c, _, hc⟩ := List.mem_filterMap.mp hi
  simp [outlierIssueFor_type d c i hc]

/-- C5.  For every dataset, with `pct = missingValues / (rowCount × headers) ×
100`, the quality report contains a `missing` issue exactly when `pct > 5`,
of severity `high` exactly when `pct > 20` and `medium` otherwise, describing
the percentage to one decimal place; and the concrete 100-row × 2-header
dataset with 12 missing cells has `pct = 6` and yields exactly one `missing`
issue, of severity `medium`. -/
theorem C5_missing_issue :
    (∀ d : ParsedData,
        ((detectQualityIssues d).filter fun i => decide (i.type = IssueType.missing)) =
          (if missingPct d > 5 then
            [{ type := .missing
               severity := if missingPct d > 20 then .high else .medium
               description :=
                 let t := toFixed1 (missingPct d)
                 s!"{t}% of data points are missing"
               affectedRows := none
               affectedColumns := none }]
          else [])) ∧
      missingPct d100 = 6 ∧
      ((detectQualityIssues d100).filter fun i => decide (i.type = IssueType.missing)) =
        [{ type := .missing
           severity := .medium
           description := "6.0% of data points are missing"
           affectedRows := none
           affectedColumns := none }] := by
  refine ⟨?_, by decide, by decide⟩
  intro d
  show ((missingIssueList d ++ smallSampleIssueList d ++
      d.summary.numericColumns.filterMap (outlierIssueFor d)).filter
        fun i => decide (i.type = IssueType.missing)) = _
  rw [List.filter_append, List.filter_append]
  have h2 : ((smallSampleIssueList d).filter fun i => decide (i.type = IssueType.missing)) = [] := by
    unfold smallSampleIssueList
    split <;> simp
  have h3 : ((d.summary.numericColumns.filterMap (outlierIssueFor d)).filter
      fun i => decide (i.type = IssueType.missing)) = [] := by
    rw [List.filter_eq_nil_iff]
    intro i hi
    obtain ⟨c, _, hc⟩ := List.mem_filterMap.mp hi
    simp [outlierIssueFor_type d c i hc]
  rw [h2, h3, List.append_nil, List.append_nil]
  unfold missingIssueList
  split <;> simp

/-! ## C2, C3, C10 — the heuristic insight engine -/

/-- The signature of a pattern: its type, confidence and visualization type. -/
def patternSig (p : Pattern) : PatternType × ℤ × Option VizType :=
  (p.type, p.confidence, p.visualization.map Viz.type)

/-- The claim's pattern selection in the fixed priority order
trend → correlation → distribution → generic fallback, as (type, confidence,
visualization-type) over the adjusted base confidence. -/
def claimPatternSig (q : String) (d : ParsedData) : PatternType × ℤ × Option VizType :=
  let base := (mockAdjust d).1
  if cTrendB q d then (.trend, base, some .line)
  else if cCorrB q d then (.correlation, base - 10, some .scatter)
  else if cDistB q d then (.distribution, base, some .histogram)
  else (.comparison, base - 20, none)

/-- The fallback branch is taken exactly when none of the three gated
branches is satisfied. -/
def fallbackB (q : String) (d : ParsedData) : Bool :=
  !cTrendB q d && !cCorrB q d && !cDistB q d

def warningsOf (i : AIInsight) : List String := i.warnings.getD []

/-- The claimed per-branch confidence delta applied to the selected pattern's
own confidence field. -/
def claimDelta (q : String) (d : ParsedData) : ℤ :=
  if cTrendB q d then 0
  else if cCorrB q d then -10
  else if cDistB q d then 0
  else -20

theorem mockAdjust_fst (d : ParsedData) :
    (mockAdjust d).1 =
      75 - (if smallB d then 20 else 0) - (if missingHighB d then 15 else 0) := by
  unfold mockAdjust
  by_cases hs : smallB d = true <;> by_cases hm : missingHighB d = true <;>
    simp [hs, hm]

/-- C2.  For every question and dataset, the local heuristic produces exactly
one pattern, whose (type, confidence, visualization) signature is chosen by
the first satisfied branch of the fixed priority order — trend (trend intent,
≥ 1 numeric column, line), correlation (correlation intent, ≥ 2 numeric
columns, base − 10, scatter), distribution (distribution intent, ≥ 1 numeric
column, histogram), else the comparison fallback at base − 20 with no
visualization; `suggestedViz` is the produced pattern's visualization type
when present, and the could-be-more-specific warning is attached exactly on
the fallback branch. -/
theorem C2_pattern_selection (q : String) (d : ParsedData) :
    ((getMockResponse q d).patterns.map patternSig) = [claimPatternSig q d] ∧
      (getMockResponse q d).suggestedViz = (claimPatternSig q d).2.2 ∧
      ((warningsOf (getMockResponse q d)).contains moreSpecificWarning) = fallbackB q d := by
  by_cases h1 : cTrendB q d = true <;> by_cases h2 : cCorrB q d = true <;>
    by_cases h3 : cDistB q d = true <;>
    by_cases hs : smallB d = true <;> by_cases hm : missingHighB d = true <;>
    simp [getMockResponse, claimPatternSig, fallbackB, patternSig, vizOfHead,
      warningsOf, optWarnings, mockAdjust, h1, h2, h3, hs, hm] <;>
    decide

/-- C3.  The local heuristic's base confidence starts at 75, loses 20 with a
small-sample warning exactly when `rowCount < 20`, and loses a further 15
with a missing-values warning exactly when
`missingValues > rowCount × headers × 0.1`; concretely, on the 15-row
dataset `d15` (missing values below the threshold) a trend question yields a
trend pattern of confidence exactly 55 and an insight warning about small
sample size. -/
theorem C3_confidence_arithmetic :
    (∀ d : ParsedData,
        (mockAdjust d).1 =
          75 - (if smallB d then 20 else 0) - (if missingHighB d then 15 else 0)) ∧
      (∀ (q : String) (d : ParsedData),
        ((warningsOf (getMockResponse q d)).contains smallSampleWarning) = smallB d) ∧
      (∀ (q : String) (d : ParsedData),
        ((warningsOf (getMockResponse q d)).contains missingValuesWarning) = missingHighB d) ∧
      d15.rowCount = 15 ∧
      smallB d15 = true ∧
      missingHighB d15 = false ∧
      ((getMockResponse "Show the trend over time" d15).patterns.map fun p =>
          (p.type, p.confidence)) = [(PatternType.trend, 55)] ∧
      ((warningsOf (getMockResponse "Show the trend over time" d15)).contains
          smallSampleWarning) = true := by
  refine ⟨mockAdjust_fst, ?_, ?_, by decide, by decide, by decide, by decide, by decide⟩
  all_goals
    intro q d
    by_cases h1 : cTrendB q d = true <;> by_cases h2 : cCorrB q d = true <;>
      by_cases h3 : cDistB q d = true <;>
      by_cases hs : smallB d = true <;> by_cases hm : missingHighB d = true <;>
      simp [getMockResponse, warningsOf, optWarnings, mockAdjust, h1, h2, h3, hs, hm] <;>
      decide

/-- C10.  In every branch, the insight-level confidence the local heuristic
returns equals the adjusted base confidence (75 minus the applicable
small-sample and missing-values deductions); the per-branch deltas (−10 for
correlation, −20 for the comparison fallback) appear only in the selected
pattern's own confidence field. -/
theorem C10_insight_confidence (q : String) (d : ParsedData) :
    (getMockResponse q d).confidence =
        75 - (if smallB d then 20 else 0) - (if missingHighB d then 15 else 0) ∧
      ((getMockResponse q d).patterns.map Pattern.confidence) =
        [75 - (if smallB d then 20 else 0) - (if missingHighB d then 15 else 0) +
          claimDelta q d] := by
  have hbase := mockAdjust_fst d
  by_cases h1 : cTrendB q d = true <;> by_cases h2 : cCorrB q d = true <;>
    by_cases h3 : cDistB q d = true <;>
    simp [getMockResponse, claimDelta, h1, h2, h3, ← hbase] <;>
    omega

/-! ## C6 — the outlier rule -/

/-- The claim's outlier predicate: a value is an outlier exactly when it lies
outside the closed interval `[q1 − 1.5·iqr, q3 + 1.5·iqr]`. -/
def claimOutliersOf (d : ParsedData) (col : String) : List JSNum :=
  (colValues d col).filter fun v =>
    !(jsLe (lowerBoundOf d col) v && jsLe v (upperBoundOf d col))

/-- The claim's per-column outlier issue: on a column with at least one
coerced numeric value, emit the medium-severity issue exactly when the
outlier count is positive and the outlier fraction exceeds 5%. -/
def claimOutlierCheck (d : ParsedData) (col : String) : Option DataQualityIssue :=
  if 0 < (colValues d col).length then emitOutlier d col (claimOutliersOf d col)
  else none

theorem exists_fin_of_isFinite (x : JSNum) (h : x.isFinite = true) : ∃ q : ℚ, x = .fin q := by
  cases x <;> simp [JSNum.isFinite] at h ⊢

theorem colSorted_all_finite (d : ParsedData) (col : String)
    (hfin : (colValues d col).all JSNum.isFinite = true) :
    (colSorted d col).all JSNum.isFinite = true := by
  rw [List.all_eq_true] at *
  intro y hy
  exact hfin y (mem_sortAsc.mp hy)

theorem finite_bounds (d : ParsedData) (col : String)
    (hfin : (colValues d col).all JSNum.isFinite = true) :
    ∃ lq uq : ℚ, lowerBoundOf d col = .fin lq ∧ upperBoundOf d col = .fin uq := by
  have hs := colSorted_all_finite d col hfin
  have hq1 : (q1Of d col).isFinite = true := by
    unfold q1Of
    exact isFinite_getD hs _
  have hq3 : (q3Of d col).isFinite = true := by
    unfold q3Of
    exact isFinite_getD hs _
  obtain ⟨a, ha⟩ := exists_fin_of_isFinite _ hq1
  obtain ⟨b, hb⟩ := exists_fin_of_isFinite _ hq3
  refine ⟨a + -(1.5 * (b + -a)), b + 1.5 * (b + -a), ?_, ?_⟩
  · unfold lowerBoundOf iqrOf
    rw [ha, hb]
    rfl
  · unfold upperBoundOf iqrOf
    rw [ha, hb]
    rfl

theorem outside_interval_eq (lq uq c : ℚ) :
    (jsLt (.fin c) (.fin lq) || jsLt (.fin uq) (.fin c)) =
      !(jsLe (.fin lq) (.fin c) && jsLe (.fin c) (.fin uq)) := by
  simp [jsLt, jsLe, JSNum.isNaN, Bool.not_and, Bool.not_not]

theorem claimOutliers_eq (d : ParsedData) (col : String)
    (hfin : (colValues d col).all JSNum.isFinite = true) :
    claimOutliersOf d col = outliersOf d col := by
  unfold claimOutliersOf outliersOf
  apply List.filter_congr
  intro v hv
  have hvf := List.all_eq_true.mp hfin v hv
  obtain ⟨c, rfl⟩ := exists_fin_of_isFinite v hvf
  obtain ⟨lq, uq, hl, hu⟩ := finite_bounds d col hfin
  rw [hl, hu]
  exact (outside_interval_eq lq uq c).symm

/-- C6.  For every dataset and numeric column whose coerced values are finite
(the claim's real-number setting): a value is an outlier exactly when it lies
outside `[q1 − 1.5·iqr, q3 + 1.5·iqr]` with the quartiles drawn at
`⌊n·0.25⌋`/`⌊n·0.75⌋` of the ascending sort, and the medium-severity outlier
issue is emitted iff the outlier count is positive and exceeds 5% of the
valid values; the quality report's outlier issues are exactly the per-column
emissions over `numericColumns`.  Concretely, `[1,…,9,100]` gives `q1 = 3`,
`q3 = 8`, bounds `[-4.5, 15.5]`, flags exactly `100`, and yields one outlier
issue. -/
theorem C6_outlier_rule (d : ParsedData) (col : String)
    (hfin : (colValues d col).all JSNum.isFinite = true) :
    claimOutlierCheck d col = outlierIssueFor d col ∧
      ((detectQualityIssues d).filter fun i => decide (i.type = IssueType.outlier)) =
        d.summary.numericColumns.filterMap (outlierIssueFor d) ∧
      q1Of d10 "v" = .fin 3 ∧
      q3Of d10 "v" = .fin 8 ∧
      lowerBoundOf d10 "v" = .fin (-9/2) ∧
      upperBoundOf d10 "v" = .fin (31/2) ∧
      outliersOf d10 "v" = [.fin 100] ∧
      detectQualityIssues d10 =
        [{ type := .outlier
           severity := .medium
           description := "v has 1 outliers (10.0%)"
           affectedRows := none
           affectedColumns := some ["v"] }] := by
  refine ⟨?_, ?_, by decide, by decide, by decide, by decide, by decide, by decide⟩
  · unfold claimOutlierCheck outlierIssueFor
    rw [claimOutliers_eq d col hfin]
  · show ((missingIssueList d ++ smallSampleIssueList d ++
        d.summary.numericColumns.filterMap (outlierIssueFor d)).filter
          fun i => decide (i.type = IssueType.outlier)) = _
    rw [List.filter_append, List.filter_append]
    have h1 : ((missingIssueList d).filter fun i => decide (i.type = IssueType.outlier)) = [] := by
      unfold missingIssueList
      split <;> simp
    have h2 : ((smallSampleIssueList d).filter fun i => decide (i.type = IssueType.outlier)) = [] := by
      unfold smallSampleIssueList
      split <;> simp
    rw [h1, h2, filter_filterMap_outlier, List.nil_append, List.nil_append]

/-- C6 witness: the outlier rule applied at the concrete dataset `d10`,
column `"v"`, whose coerced values are all finite. -/
theorem C6_witness :
    claimOutlierCheck d10 "v" = outlierIssueFor d10 "v" ∧
      ((detectQualityIssues d10).filter fun i => decide (i.type = IssueType.outlier)) =
        d10.summary.numericColumns.filterMap (outlierIssueFor d10) ∧
      q1Of d10 "v" = .fin 3 ∧
      q3Of d10 "v" = .fin 8 ∧
      lowerBoundOf d10 "v" = .fin (-9/2) ∧
      upperBoundOf d10 "v" = .fin (31/2) ∧
      outliersOf d10 "v" = [.fin 100] ∧
      detectQualityIssues d10 =
        [{ type := .outlier
           severity := .medium
           description := "v has 1 outliers (10.0%)"
           affectedRows := none
           affectedColumns := some ["v"] }] :=
  C6_outlier_rule d10 "v" (by decide)

end InsightBridge
